import Mathlib

/-!
Verification of the aerial-robotics mission core.

This file shallowly embeds the Python source of the repository
(`app/flight_ctl.py`, `app/flight_states.py`, `app/drone.py`,
`controllers/main/utils.py`) into Lean and proves or refutes the frozen
claims about it.

Embedding conventions:
* Python `float` arithmetic is modelled over `ℚ` (exact arithmetic; the
  claims under study are about index arithmetic, ordering and control
  flow, none of which hinge on rounding of IEEE doubles, except where NaN
  matters — NaN is modelled explicitly via `Option ℚ`).
* Python `int(x)` (truncation toward zero) is modelled by `pyInt`.
* `numpy` fancy indexing is modelled including Python's negative-index
  wrap-around (`npIndex`).
* `numpy` 2-D rasters are modelled as total functions `ℤ → ℤ → ℚ`
  together with explicit dimensions where an operation iterates over the
  raster.
* Constants imported from `app/config.py` (not part of the given source
  files) are taken as parameters: `M` stands for `MAP_PX_PER_M`, and
  tolerances are explicit arguments.
-/

/-- Python `int()` applied to a real-valued expression: truncation toward
zero. -/
def pyInt (q : ℚ) : ℤ := if 0 ≤ q then ⌊q⌋ else ⌈q⌉

/-- A 2-D point or vector, as used for world positions (`Vec2` in
`utils.py` / `app/utils/math.py`). -/
abbrev Pt : Type := ℚ × ℚ

/-- Squared magnitude of a 2-D vector; comparisons of the source's
`sqrt`-based magnitudes against a nonnegative tolerance are modelled by
comparing squares, which is equivalent over the reals. -/
def mag2 (v : Pt) : ℚ := v.1 ^ 2 + v.2 ^ 2

/-- Componentwise difference of two points (`Vec2.__sub__` in
`utils.py`). -/
def sub2 (a b : Pt) : Pt := (a.1 - b.1, a.2 - b.2)

namespace ProbalityMap

/-- Raster dimensions from `ProbalityMap.__init__`:
`size = (int(MAP_PX_PER_M * 1.5), int(MAP_PX_PER_M * 3.0))`. -/
def mapSize (M : ℕ) : ℤ × ℤ := (pyInt ((M : ℚ) * (3 / 2)), pyInt ((M : ℚ) * 3))

/-- `ProbalityMap.to_coords` from `app/drone.py`: world metres to raster
cell indices, with `map_offset = 3.5`, `size_x, size_y = 1.5, 3.0`. -/
def to_coords (M : ℕ) (position : Pt) : ℤ × ℤ :=
  let px_x : ℤ := (mapSize M).1
  let px_y : ℤ := (mapSize M).2
  (pyInt ((position.1 - 7 / 2) * (px_x : ℚ) / (3 / 2)),
   pyInt (position.2 * (px_y : ℚ) / 3))

/-- `ProbalityMap.to_position` from `app/drone.py`.  Note that the source
unpacks its argument as `(y, x) = coords`: the FIRST component is used
for the world-`y` output and the SECOND for the world-`x` output. -/
def to_position (M : ℕ) (coords : ℤ × ℤ) : Pt :=
  (((coords.2 : ℚ) + 1 / 2) / (M : ℚ) + 7 / 2,
   ((coords.1 : ℚ) + 1 / 2) / (M : ℚ))

/-- Swap the two components of a cell-index pair. -/
def swapPair (c : ℤ × ℤ) : ℤ × ℤ := (c.2, c.1)

/-- The world-coordinate extent covered by the probability raster:
`x ∈ [3.5, 5)`, `y ∈ [0, 3)` (offset 3.5, footprint 1.5 m × 3 m). -/
def inGridBounds (p : Pt) : Prop :=
  7 / 2 ≤ p.1 ∧ p.1 < 5 ∧ 0 ≤ p.2 ∧ p.2 < 3

instance (p : Pt) : Decidable (inGridBounds p) := by
  unfold inGridBounds; infer_instance

/-- `numpy` index resolution for one axis of length `n`: indices in
`[0, n)` are used as-is, indices in `[-n, 0)` wrap around to the other
end, anything else raises `IndexError` (modelled as `none`). -/
def npIndex (n : ℤ) (i : ℤ) : Option ℤ :=
  if 0 ≤ i ∧ i < n then some i
  else if -n ≤ i ∧ i < 0 then some (i + n)
  else none

/-- `np.sum(np.abs(np.diff(hist)))`: the roughness signal computed by
`ProbalityMap.fill` from the downward-range history. -/
def sumAbsDiff (hist : List ℚ) : ℚ :=
  ((hist.zip hist.tail).map (fun ab => |ab.2 - ab.1|)).sum

/-- The raster write performed by `fill`:
`map[r, cc] = max(roughness, map[r, cc])`, all other cells unchanged. -/
def writeMax (m : ℤ → ℤ → ℚ) (r cc : ℤ) (v : ℚ) : ℤ → ℤ → ℚ :=
  fun r' c' => if r' = r ∧ c' = cc then max v (m r cc) else m r' c'

/-- `ProbalityMap.fill` from `app/drone.py`: map the current world
position to a cell (no clamping in the source) and set that cell to the
max of its old value and the roughness signal.  Indexing follows `numpy`
semantics via `npIndex`: the call fails (`IndexError`, modelled `none`)
when either axis index is outside `[-size, size)`. -/
def fill (M : ℕ) (m : ℤ → ℤ → ℚ) (position : Pt) (hist : List ℚ) :
    Option (ℤ → ℤ → ℚ) :=
  (npIndex (mapSize M).1 (to_coords M position).1).bind fun r =>
    (npIndex (mapSize M).2 (to_coords M position).2).map fun cc =>
      writeMax m r cc (sumAbsDiff hist)

/-- A sequence of `fill` calls (one per visit), each with its own world
position and range history; the sequence fails as soon as one call
fails. -/
def fillSeq (M : ℕ) : List (Pt × List ℚ) → (ℤ → ℤ → ℚ) → Option (ℤ → ℤ → ℚ)
  | [], m => some m
  | x :: xs, m => (fill M m x.1 x.2).bind (fillSeq M xs)

/-- Row-major flattening of the raster restricted to the given
dimensions, as `numpy` does for reductions such as `np.median`. -/
def flattenMap (rows cols : ℕ) (m : ℤ → ℤ → ℚ) : List ℚ :=
  ((List.range rows).map
    (fun r => (List.range cols).map (fun c => m (r : ℤ) (c : ℤ)))).flatten

/-- Insert into a sorted list (helper for `sortQ`). -/
def insertSorted (a : ℚ) : List ℚ → List ℚ
  | [] => [a]
  | b :: t => if a ≤ b then a :: b :: t else b :: insertSorted a t

/-- Insertion sort of a list of rationals. -/
def sortQ : List ℚ → List ℚ
  | [] => []
  | a :: t => insertSorted a (sortQ t)

/-- `np.median` of a flat list: middle element of the sorted list for odd
length, average of the two middle elements for even length. -/
def npMedian (l : List ℚ) : ℚ :=
  if (sortQ l).length % 2 = 1 then (sortQ l).getD ((sortQ l).length / 2) 0
  else
    ((sortQ l).getD ((sortQ l).length / 2 - 1) 0 +
      (sortQ l).getD ((sortQ l).length / 2) 0) / 2

/-- `temp = (map > 0) * map`: the raster with non-positive cells zeroed
(elementwise product with the boolean mask `map > 0`). -/
def zeroNeg (m : ℤ → ℤ → ℚ) : ℤ → ℤ → ℚ :=
  fun r c => if 0 < m r c then m r c else 0

/-- `ProbalityMap.process_map` from `app/drone.py`:
`temp = (map > 0) * map`, `threshold = np.median(temp)` (the median is
taken over ALL cells of the zeroed raster), and the surviving mask is
`(map > threshold + 29) * map` with the hardcoded constant `29`. -/
def process_map (rows cols : ℕ) (m : ℤ → ℤ → ℚ) : ℤ → ℤ → ℚ :=
  fun r c =>
    if npMedian (flattenMap rows cols (zeroNeg m)) + 29 < m r c then m r c
    else 0

/-- The strictly-positive cells of a raster, in row-major order. -/
def posCells (rows cols : ℕ) (m : ℤ → ℤ → ℚ) : List ℚ :=
  (flattenMap rows cols m).filter (fun v => 0 < v)

/-- Modelled from the spec: the spec's wording of the extraction
threshold, for refinement comparison with `process_map` — "compute the
raster's median over strictly-positive cells; threshold at `median + K`";
the mask keeps the cells exceeding that threshold. -/
def process_map_specVersion (K : ℚ) (rows cols : ℕ) (m : ℤ → ℤ → ℚ) :
    ℤ → ℤ → ℚ :=
  fun r c => if npMedian (posCells rows cols m) + K < m r c then m r c else 0

/-- `numpy` float division with the 0-denominator case made explicit:
`none` models the silent NaN that `0/0` produces (a warning, not an
exception). -/
def npDiv (a b : ℚ) : Option ℚ := if b = 0 then none else some (a / b)

/-- Sum of a raster over the given dimensions. -/
def sumMap (rows cols : ℕ) (m : ℤ → ℤ → ℚ) : ℚ :=
  (flattenMap rows cols m).sum

/-- `to_position` lifted to possibly-NaN cell coordinates (the
`(mean_x, mean_y)` pair of `find_mean_position`); NaN propagates through
the affine conversion. -/
def to_positionN (M : ℕ) (coords : Option ℚ × Option ℚ) :
    Option ℚ × Option ℚ :=
  (coords.2.map (fun x => (x + 1 / 2) / (M : ℚ) + 7 / 2),
   coords.1.map (fun y => (y + 1 / 2) / (M : ℚ)))

/-- `ProbalityMap.find_mean_position` from `app/drone.py`: threshold the
raster, compute the intensity-weighted mean column (`mean_x`) and mean
row (`mean_y`), and convert through `to_position((mean_x, mean_y))`.
When the mask sums to zero the two divisions are `0/0` (NaN, modelled
`none`); there is no separate no-detection branch in the source. -/
def find_mean_position (M rows cols : ℕ) (m : ℤ → ℤ → ℚ) :
    Option ℚ × Option ℚ :=
  to_positionN M
    (npDiv (sumMap rows cols (fun r c => (c : ℚ) * process_map rows cols m r c))
       (sumMap rows cols (process_map rows cols m)),
     npDiv (sumMap rows cols (fun r c => (r : ℚ) * process_map rows cols m r c))
       (sumMap rows cols (process_map rows cols m)))

/-- The raster of the spec's extraction scenario: all zeros except cell
`(3,3) = 50`. -/
def scenarioRaster : ℤ → ℤ → ℚ := fun r c => if r = 3 ∧ c = 3 then 50 else 0

/-- An all-zero raster (the state of a fresh `ProbalityMap`). -/
def zeroRaster : ℤ → ℤ → ℚ := fun _ _ => 0

/-- A concrete two-visit accumulation sequence used to instantiate the
`fill` monotonicity theorem: both visits at world position `(4, 1)`, the
first with roughness 1, the second with roughness 0. -/
def demoInputs : List (Pt × List ℚ) := [((4, 1), [0, 1]), ((4, 1), [0, 0])]

end ProbalityMap

/-! State machine: kinds, the driver's guard, and the state payloads the
claims mention. -/

/-- The declared kinds (Python classes) of the mission states in
`app/flight_states.py`. -/
inductive StateKind where
  | boot
  | takeoff
  | goForward
  | targetSearch
  | targetCentering
  | goLower
  | returnHome
  | scanKind
  | stop
deriving DecidableEq, BEq

/-- A Python runtime value as far as the driver's guard is concerned:
either a class object (what `type(x)` yields) or a state instance,
identified by its kind together with an identity token distinguishing
distinct instances of the same class. -/
inductive PyVal where
  | classObj (k : StateKind)
  | instObj (k : StateKind) (ident : ℕ)
deriving DecidableEq

/-- Python `==` restricted to the values above.  The state classes do not
override `__eq__`, so equality falls back to identity: a class object is
never equal to an instance of it. -/
def pyEq : PyVal → PyVal → Bool
  | .classObj a, .classObj b => a == b
  | .instObj k i, .instObj k2 i2 => k == k2 && i == i2
  | _, _ => false

/-- A state instance as seen by the driver: its class (kind) and an
identity token. -/
structure StInst where
  kind : StateKind
  ident : ℕ
deriving DecidableEq

/-- Outcome of one pass through `FlightController.next` in
`app/flight_ctl.py`, abstracting the recursive re-update after a
transition (the claims concern only the guard and the terminal check). -/
inductive TickOutcome where
  | terminatedInvalid
  | transitioned (s : StInst)
  | stayed (finished : Bool)
deriving DecidableEq

/-- One pass of `FlightController.next`: if the state's `next` returned a
new state, the guard `type(next) == self._state` is evaluated (note: the
source compares the CLASS of the returned state against the current state
INSTANCE); when it fires the driver logs an invalid-transition error and
returns `True` (mission over).  Otherwise the driver transitions.  With
no returned state, the tick reports whether the current state is `Stop`. -/
def flightControllerStep (cur : StInst) (ret : Option StInst) : TickOutcome :=
  match ret with
  | some nxt =>
      if pyEq (.classObj nxt.kind) (.instObj cur.kind cur.ident) then
        .terminatedInvalid
      else
        .transitioned nxt
  | none => .stayed (cur.kind == .stop)

namespace TargetSearch

/-- The per-instance data of a `TargetSearch` state: the candidate list
and the current index (`__init__` sets them to `[]` and `0`). -/
structure TS where
  research_points : List Pt
  index : ℕ
deriving DecidableEq

/-- Result of `TargetSearch.next`: transition to `Stop`, transition to a
fresh `TargetSearch` instance, or no transition. -/
inductive TSResult where
  | stop
  | newSearch (t : TS)
  | noTransition
deriving DecidableEq

/-- `TargetSearch.next` from `app/flight_states.py`: when the index has
reached the list length, return `Stop()`; when near the current target,
increment `self.index` (on the instance about to be discarded) and return
`TargetSearch()` — the fresh instance built by `__init__`, i.e. with
empty candidate list and index `0`.  The near-target test is passed in as
a boolean since `is_near_target` depends on configuration tolerances. -/
def next (s : TS) (isNearTarget : Bool) : TS × TSResult :=
  if s.index = s.research_points.length then (s, .stop)
  else if isNearTarget then
    ({ s with index := s.index + 1 }, .newSearch ⟨[], 0⟩)
  else (s, .noTransition)

/-- `research_points1` from `TargetSearch.compute_target_map`. -/
def research_points1 : List Pt :=
  [(47/10, 27/10), (47/10, 19/10), (47/10, 11/10), (47/10, 3/10),
   (42/10, 3/10), (42/10, 11/10), (42/10, 19/10), (42/10, 27/10),
   (38/10, 27/10), (38/10, 19/10), (38/10, 11/10), (38/10, 3/10)]

/-- Squared-distance form of `TargetSearch.distance` (the source compares
`sqrt(dx² + dy²) < max_dist`; we compare squares, equivalent for the
positive radius `max_dist = 1.5`). -/
def dist2 (p1 p2 : Pt) : ℚ := (p1.1 - p2.1) ^ 2 + (p1.2 - p2.2) ^ 2

/-- Number of points of `l` within radius `1.5` of `p` (the point itself
included, as in the source's `for point in research_points2` loop). -/
def countNeighbors (l : List Pt) (p : Pt) : ℕ :=
  (l.filter (fun q => dist2 q p < 9/4)).length

/-- A point is isolated when its neighbour count is at or below
`min_neighbourg = 3`. -/
def isIso (l : List Pt) (p : Pt) : Bool := countNeighbors l p ≤ 3

/-- The isolation-reordering loop of `compute_target_map`: `nb` counts
down as fuel (the source runs exactly `len(list)` iterations since the
list keeps its length), `id` is the scan position; an isolated point is
removed (first occurrence, as Python `list.remove`) and appended, a
non-isolated point advances `id`.  The neighbour count is taken against
the CURRENT list, which stays a permutation of the original. -/
def isolationGo : ℕ → ℕ → List Pt → List Pt
  | 0, _, cur => cur
  | fuel + 1, id, cur =>
      if isIso cur (cur.getD id (0, 0)) then
        isolationGo fuel id
          (cur.erase (cur.getD id (0, 0)) ++ [cur.getD id (0, 0)])
      else isolationGo fuel (id + 1) cur

/-- The full isolation pass over one candidate list. -/
def isolationPass (l : List Pt) : List Pt := isolationGo l.length 0 l

/-- A 5-point candidate list with exactly two isolated points, placed
first and fourth: `K1 K2 K3` are mutually within the radius and each has
a fourth neighbour, `I1` reaches only `K1, K2`, `I2` reaches only `K3`. -/
def demoList : List Pt :=
  [(1/2, -6/5), (0, 0), (1, 0), (1/2, 11/5), (1/2, 4/5)]

end TargetSearch

namespace TargetCentering

/-- The fields of `TargetCentering` relevant to its tick logic:
`__init__` sets `x_pos` and `y_pos` to `False` (and `axe_X = 0`,
`axe_Y = 1`); `target_pad` is assigned the type expression
`Vec2 | None`, modelled as an opaque marker that is simply carried
around. -/
structure TC where
  x_pos : Bool
  y_pos : Bool
  axe_X : ℕ
  axe_Y : ℕ
deriving DecidableEq

/-- A freshly constructed `TargetCentering` per `__init__`. -/
def init : TC := ⟨false, false, 0, 1⟩

/-- The part of the flight context that `TargetCentering.next` may touch:
whether `fctx.target_pad` has been assigned by the centering state. -/
structure Ctx where
  target_pad_assigned : Bool
deriving DecidableEq

/-- `TargetCentering.start`: `pass`. -/
def start (s : TC) (f : Ctx) : TC × Ctx := (s, f)

/-- `TargetCentering.next`: if `x_pos or y_pos`, copy the centering
estimate into `fctx.target_pad` and return `GoLower()`; otherwise fall
through, returning `None`.  Neither branch assigns `x_pos` or `y_pos`. -/
def next (s : TC) (f : Ctx) : TC × Ctx × Option Unit :=
  if s.x_pos || s.y_pos then (s, ⟨true⟩, some ())
  else (s, f, none)

end TargetCentering

namespace FlightCtl

/-- Modelled from the spec: `FlightContext.is_near_next_waypoint` is not
among the given source files (only its caller in
`FlightController.apply_flight_command` is).  Per the spec, the head of
the waypoint queue is tested against the near-waypoint tolerance: the
test is false when there is no queue or the queue is empty. -/
def is_near_next_waypoint (pos : Pt) (tol : ℚ) (path : Option (List Pt)) :
    Bool :=
  match path with
  | none => false
  | some [] => false
  | some (w :: _) => mag2 (sub2 pos w) < tol * tol

/-- The condition of the waypoint-consumption `while` loop in
`apply_flight_command`, specialised to a present queue `l`:
`is_near_next_waypoint() and path is not None and len(path) >= 0`
(the last conjunct is vacuously true and kept for faithfulness). -/
def loopGuard (pos : Pt) (tol : ℚ) (l : List Pt) : Bool :=
  is_near_next_waypoint pos tol (some l) && true && decide (0 ≤ l.length)

/-- The waypoint-consumption loop body: `path.pop(0)` repeated while the
guard holds.  Popping an empty list would raise `IndexError`, modelled as
`none`. -/
def consume_waypoints (pos : Pt) (tol : ℚ) : List Pt → Option (List Pt)
  | [] => if loopGuard pos tol [] then none else some []
  | w :: ws =>
      if loopGuard pos tol (w :: ws) then consume_waypoints pos tol ws
      else some (w :: ws)

end FlightCtl

/-! Theorems. -/

/-- C1: the claim says the driver logs an invalid-transition error and
forces immediate termination whenever `next` returns a state of the same
declared kind as the current one (TargetSearch self-loops excepted).  In
the source the guard is `type(next) == self._state`, which compares a
class object with a state instance and is therefore always false: the
fatal outcome is never produced for ANY pair, identical-kind or not.
This theorem evaluates the guard at the failing input (a Takeoff-kind
current state whose `next` returned a fresh Takeoff-kind instance) and
shows the invalid-transition outcome is unreachable in general. -/
theorem C1_invalid_transition_guard_dead :
    flightControllerStep ⟨.takeoff, 0⟩ (some ⟨.takeoff, 1⟩) =
      .transitioned ⟨.takeoff, 1⟩ ∧
    (⟨.takeoff, 0⟩ : StInst).kind = (⟨.takeoff, 1⟩ : StInst).kind ∧
    ∀ (cur : StInst) (ret : Option StInst),
      flightControllerStep cur ret ≠ .terminatedInvalid := by
  refine ⟨rfl, rfl, ?_⟩
  intro cur ret
  cases ret with
  | none => simp [flightControllerStep]
  | some nxt => simp [flightControllerStep, pyEq]

/-- C4: the claim says `TargetSearch.next` returns `Stop` once the index
reaches the candidate-list length (true), and that when near the current
candidate it returns a fresh `TargetSearch` carrying the incremented
index `i + 1` (false: the source increments `self.index` on the instance
being discarded and returns `TargetSearch()`, whose `__init__` sets the
index to `0` and the candidate list to `[]`).  Evaluated here at the
failing input: index 0, near the current candidate. -/
theorem C4_fresh_search_restarts_at_zero :
    (∀ (L : List Pt) (b : Bool),
        TargetSearch.next ⟨L, L.length⟩ b = (⟨L, L.length⟩, .stop)) ∧
    TargetSearch.next ⟨TargetSearch.research_points1, 0⟩ true =
      (⟨TargetSearch.research_points1, 1⟩, .newSearch ⟨[], 0⟩) ∧
    (⟨[], 0⟩ : TargetSearch.TS).index = 0 := by
  refine ⟨?_, ?_, rfl⟩
  · intro L b
    simp [TargetSearch.next]
  · simp [TargetSearch.next, TargetSearch.research_points1]

/-- C10: a freshly constructed `TargetCentering` has `x_pos` and `y_pos`
both false; `start` and `next` never assign them (for any state value,
both return the state unchanged), so on the fresh instance `next` always
returns `None` and the `GoLower` transition is never taken by the state's
own tick logic. -/
theorem C10_target_centering_inert :
    TargetCentering.init.x_pos = false ∧
    TargetCentering.init.y_pos = false ∧
    (∀ (s : TargetCentering.TC) (f : TargetCentering.Ctx),
        TargetCentering.start s f = (s, f)) ∧
    (∀ (s : TargetCentering.TC) (f : TargetCentering.Ctx),
        (TargetCentering.next s f).1 = s) ∧
    (∀ f : TargetCentering.Ctx,
        TargetCentering.next TargetCentering.init f =
          (TargetCentering.init, f, none)) := by
  refine ⟨rfl, rfl, fun s f => rfl, ?_, ?_⟩
  · intro s f
    by_cases h : s.x_pos || s.y_pos <;> simp [TargetCentering.next, h]
  · intro f
    simp [TargetCentering.next, TargetCentering.init]

/-- C3: in `apply_flight_command` the waypoint queue head is popped only
while the queue is non-empty and the vehicle is within the near-waypoint
tolerance of that head; the loop never pops or indexes an empty queue
(the `IndexError` case of the model never occurs), and the queue length
is non-increasing. -/
theorem C3_waypoint_consumption_safe :
    ∀ (pos : Pt) (tol : ℚ) (l : List Pt),
      ∃ r : List Pt,
        FlightCtl.consume_waypoints pos tol l = some r ∧
        r.length ≤ l.length ∧
        ∃ dropped : List Pt,
          l = dropped ++ r ∧ ∀ w ∈ dropped, mag2 (sub2 pos w) < tol * tol := by
  intro pos tol l
  induction l with
  | nil =>
      refine ⟨[], ?_, le_refl _, [], rfl, by simp⟩
      simp [FlightCtl.consume_waypoints, FlightCtl.loopGuard,
        FlightCtl.is_near_next_waypoint]
  | cons w ws ih =>
      by_cases h : mag2 (sub2 pos w) < tol * tol
      · obtain ⟨r, hr, hlen, dropped, hd, hnear⟩ := ih
        refine ⟨r, ?_, ?_, w :: dropped, ?_, ?_⟩
        · simpa [FlightCtl.consume_waypoints, FlightCtl.loopGuard,
            FlightCtl.is_near_next_waypoint, h] using hr
        · exact le_trans hlen (Nat.le_succ _)
        · simp [hd]
        · intro x hx
          rcases List.mem_cons.mp hx with hx | hx
          · exact hx ▸ h
          · exact hnear x hx
      · refine ⟨w :: ws, ?_, le_refl _, [], rfl, by simp⟩
        simp [FlightCtl.consume_waypoints, FlightCtl.loopGuard,
          FlightCtl.is_near_next_waypoint, h]

/-- Helper for C8: one `fill` call never decreases any cell. -/
theorem fill_step_mono (M : ℕ) (m : ℤ → ℤ → ℚ) (p : Pt) (hist : List ℚ)
    (m' : ℤ → ℤ → ℚ) (h : ProbalityMap.fill M m p hist = some m') :
    ∀ r c, m r c ≤ m' r c := by
  intro r c
  simp only [ProbalityMap.fill] at h
  rcases hx : ProbalityMap.npIndex (ProbalityMap.mapSize M).1
      (ProbalityMap.to_coords M p).1 with _ | rr
  · rw [hx] at h
    simp at h
  · rw [hx] at h
    rcases hy : ProbalityMap.npIndex (ProbalityMap.mapSize M).2
        (ProbalityMap.to_coords M p).2 with _ | cc
    · rw [hy] at h
      simp at h
    · rw [hy] at h
      simp at h
      rw [← h]
      unfold ProbalityMap.writeMax
      by_cases hc : r = rr ∧ c = cc
      · rcases hc with ⟨e1, e2⟩
        subst e1
        subst e2
        simp
      · simp [hc]

/-- C8: each raster cell holds the maximum roughness observed so far:
a single `fill` call never decreases any cell, and across any sequence of
`fill` calls with arbitrary positions and range histories every cell is
monotone non-decreasing. -/
theorem C8_fill_monotone :
    (∀ (M : ℕ) (m : ℤ → ℤ → ℚ) (p : Pt) (hist : List ℚ) (m' : ℤ → ℤ → ℚ),
        ProbalityMap.fill M m p hist = some m' → ∀ r c, m r c ≤ m' r c) ∧
    (∀ (M : ℕ) (inputs : List (Pt × List ℚ)) (m m' : ℤ → ℤ → ℚ),
        ProbalityMap.fillSeq M inputs m = some m' → ∀ r c, m r c ≤ m' r c) := by
  constructor
  · exact fill_step_mono
  · intro M inputs
    induction inputs with
    | nil =>
        intro m m' h r c
        simp only [ProbalityMap.fillSeq, Option.some.injEq] at h
        rw [h]
    | cons x xs ih =>
        intro m m' h r c
        simp only [ProbalityMap.fillSeq] at h
        rcases hf : ProbalityMap.fill M m x.1 x.2 with _ | m1
        · rw [hf] at h
          simp at h
        · rw [hf] at h
          simp only [Option.some_bind] at h
          exact le_trans (fill_step_mono M m x.1 x.2 m1 hf r c)
            (ih m1 m' h r c)

/-- Witness for C8: the monotonicity theorem applied to the concrete
two-visit sequence `demoInputs` on the all-zero raster. -/
theorem C8_fill_monotone_witness :
    (ProbalityMap.fillSeq 3 ProbalityMap.demoInputs
        ProbalityMap.zeroRaster).isSome = true ∧
    ProbalityMap.zeroRaster 1 3 ≤
      ((ProbalityMap.fillSeq 3 ProbalityMap.demoInputs
          ProbalityMap.zeroRaster).getD ProbalityMap.zeroRaster) 1 3 := by
  have h1 : ProbalityMap.mapSize 3 = (4, 9) := by
    norm_num [ProbalityMap.mapSize, pyInt]
  have h2 : ProbalityMap.to_coords 3 ((4 : ℚ), (1 : ℚ)) = (1, 3) := by
    norm_num [ProbalityMap.to_coords, h1, pyInt]
  have hx : ProbalityMap.npIndex (ProbalityMap.mapSize 3).1
      (ProbalityMap.to_coords 3 ((4 : ℚ), (1 : ℚ))).1 = some 1 := by
    rw [h1, h2]
    norm_num [ProbalityMap.npIndex]
  have hy : ProbalityMap.npIndex (ProbalityMap.mapSize 3).2
      (ProbalityMap.to_coords 3 ((4 : ℚ), (1 : ℚ))).2 = some 3 := by
    rw [h1, h2]
    norm_num [ProbalityMap.npIndex]
  have h3 : ∀ (m : ℤ → ℤ → ℚ) (hist : List ℚ),
      ProbalityMap.fill 3 m ((4 : ℚ), (1 : ℚ)) hist =
        some (ProbalityMap.writeMax m 1 3 (ProbalityMap.sumAbsDiff hist)) := by
    intro m hist
    simp only [ProbalityMap.fill, hx, hy, Option.some_bind, Option.map_some']
  constructor
  · simp only [ProbalityMap.demoInputs, ProbalityMap.fillSeq, h3,
      Option.some_bind]
    rfl
  · rcases hm : ProbalityMap.fillSeq 3 ProbalityMap.demoInputs
        ProbalityMap.zeroRaster with _ | m'
    · simp [ProbalityMap.zeroRaster]
    · simp only [Option.getD_some]
      exact C8_fill_monotone.2 3 ProbalityMap.demoInputs
        ProbalityMap.zeroRaster m' hm 1 3

/-- Helper: the sum of a pointwise-zero raster over the 4 × 9 scenario
dimensions is zero. -/
theorem sumMap_zero_of_zero (g : ℤ → ℤ → ℚ) (hg : ∀ r c, g r c = 0) :
    ProbalityMap.sumMap 4 9 g = 0 := by
  have hfun : g = ProbalityMap.zeroRaster :=
    funext fun r => funext fun c => hg r c
  rw [hfun]
  have hflat : ProbalityMap.flattenMap 4 9 ProbalityMap.zeroRaster =
      List.replicate 36 0 := by decide
  rw [ProbalityMap.sumMap, hflat]
  simp

/-- C6: on an all-zero raster (empty mask) the extraction of
`find_mean_position` does NOT report a distinct no-detection outcome: it
divides `0/0` (NaN, modelled `none`) and silently returns the NaN vector
through `to_position`.  The claimed guard does not exist in the source. -/
theorem C6_zero_mask_nan_centroid :
    ProbalityMap.find_mean_position 3 4 9 ProbalityMap.zeroRaster =
      (none, none) := by
  have hmp : ProbalityMap.process_map 4 9 ProbalityMap.zeroRaster =
      ProbalityMap.zeroRaster := by
    funext r c
    simp [ProbalityMap.process_map, ProbalityMap.zeroRaster]
  have h1 := sumMap_zero_of_zero
    (fun r c => (c : ℚ) * ProbalityMap.zeroRaster r c)
    (by intro r c; simp [ProbalityMap.zeroRaster])
  have h2 := sumMap_zero_of_zero ProbalityMap.zeroRaster
    (by intro r c; rfl)
  have h3 := sumMap_zero_of_zero
    (fun r c => (r : ℚ) * ProbalityMap.zeroRaster r c)
    (by intro r c; simp [ProbalityMap.zeroRaster])
  simp only [ProbalityMap.find_mean_position, hmp, h1, h2, h3]
  simp [ProbalityMap.npDiv, ProbalityMap.to_positionN]

/-- Helper for C5: the code's threshold base on the scenario raster — the
median over ALL 36 cells of the zeroed raster (35 zeros and one 50) — is
zero. -/
theorem scenario_median_zero :
    ProbalityMap.npMedian (ProbalityMap.flattenMap 4 9
      (ProbalityMap.zeroNeg ProbalityMap.scenarioRaster)) = 0 := by
  have hs : ProbalityMap.sortQ (ProbalityMap.flattenMap 4 9
      (ProbalityMap.zeroNeg ProbalityMap.scenarioRaster)) =
      List.replicate 35 0 ++ [50] := by decide
  have hg17 : (List.replicate 35 (0 : ℚ) ++ [50]).getD 17 0 = 0 := by decide
  have hg18 : (List.replicate 35 (0 : ℚ) ++ [50]).getD 18 0 = 0 := by decide
  have hlen : (List.replicate 35 (0 : ℚ) ++ [50]).length = 36 := by decide
  simp only [ProbalityMap.npMedian, hs, hlen]
  rw [if_neg (by norm_num : ¬(36 % 2 = 1))]
  rw [show (36 : ℕ) / 2 - 1 = 17 by norm_num, show (36 : ℕ) / 2 = 18 by norm_num]
  rw [hg17, hg18]
  norm_num

/-- Helper for C5: with the code's threshold (`0 + 29`), the mask keeps
the scenario raster unchanged — exactly the single cell `(3,3) = 50`
survives. -/
theorem scenario_mask_id :
    ∀ r c, ProbalityMap.process_map 4 9 ProbalityMap.scenarioRaster r c =
      ProbalityMap.scenarioRaster r c := by
  intro r c
  simp only [ProbalityMap.process_map, scenario_median_zero]
  by_cases h : r = 3 ∧ c = 3
  · simp [ProbalityMap.scenarioRaster, h]
    norm_num
  · simp [ProbalityMap.scenarioRaster, h]

/-- Helper for C5: total mass of the scenario mask. -/
theorem scenario_sum_mask :
    ProbalityMap.sumMap 4 9 ProbalityMap.scenarioRaster = 50 := by
  have hr4 : List.range 4 = [0, 1, 2, 3] := by decide
  have hr9 : List.range 9 = [0, 1, 2, 3, 4, 5, 6, 7, 8] := by decide
  simp only [ProbalityMap.sumMap, ProbalityMap.flattenMap, hr4, hr9,
    List.map_cons, List.map_nil, List.flatten_cons, List.flatten_nil,
    ProbalityMap.scenarioRaster]
  norm_num [List.sum_append, List.sum_cons, List.sum_nil]

/-- Helper for C5: column-weighted mass of the scenario mask. -/
theorem scenario_sum_col :
    ProbalityMap.sumMap 4 9
      (fun r c => (c : ℚ) * ProbalityMap.scenarioRaster r c) = 150 := by
  have hr4 : List.range 4 = [0, 1, 2, 3] := by decide
  have hr9 : List.range 9 = [0, 1, 2, 3, 4, 5, 6, 7, 8] := by decide
  simp only [ProbalityMap.sumMap, ProbalityMap.flattenMap, hr4, hr9,
    List.map_cons, List.map_nil, List.flatten_cons, List.flatten_nil,
    ProbalityMap.scenarioRaster]
  norm_num [List.sum_append, List.sum_cons, List.sum_nil]

/-- Helper for C5: row-weighted mass of the scenario mask. -/
theorem scenario_sum_row :
    ProbalityMap.sumMap 4 9
      (fun r c => (r : ℚ) * ProbalityMap.scenarioRaster r c) = 150 := by
  have hr4 : List.range 4 = [0, 1, 2, 3] := by decide
  have hr9 : List.range 9 = [0, 1, 2, 3, 4, 5, 6, 7, 8] := by decide
  simp only [ProbalityMap.sumMap, ProbalityMap.flattenMap, hr4, hr9,
    List.map_cons, List.map_nil, List.flatten_cons, List.flatten_nil,
    ProbalityMap.scenarioRaster]
  norm_num [List.sum_append, List.sum_cons, List.sum_nil]

/-- C5 counterexample: the claim's threshold rule — median over
strictly-positive cells plus K — does not describe the code.  On the
scenario raster (all zeros except `(3,3) = 50`) the strictly-positive
cells are `[50]` with median `50`, so the claimed mask (with the
scenario's `K = 0`) drops cell `(3,3)` (`50 > 50` is false), while the
code's mask — median over all 36 cells of the zeroed raster (which is 0)
plus the hardcoded 29 — keeps it. -/
theorem C5_threshold_counterexample :
    ProbalityMap.posCells 4 9 ProbalityMap.scenarioRaster = [50] ∧
    ProbalityMap.npMedian (ProbalityMap.posCells 4 9
      ProbalityMap.scenarioRaster) = 50 ∧
    ProbalityMap.process_map_specVersion 0 4 9 ProbalityMap.scenarioRaster 3 3
      = 0 ∧
    ProbalityMap.process_map 4 9 ProbalityMap.scenarioRaster 3 3 = 50 := by
  have hpos : ProbalityMap.posCells 4 9 ProbalityMap.scenarioRaster =
      [50] := by decide
  have hmed : ProbalityMap.npMedian [(50 : ℚ)] = 50 := by decide
  refine ⟨hpos, by rw [hpos]; exact hmed, ?_, ?_⟩
  · simp only [ProbalityMap.process_map_specVersion, hpos, hmed]
    norm_num [ProbalityMap.scenarioRaster]
  · rw [scenario_mask_id]
    simp [ProbalityMap.scenarioRaster]

/-- C5 (amended): the code's extraction thresholds at
`median-of-zeroed-raster (over all cells) + 29` (hardcoded), keeps
exactly the cells exceeding that, and returns the intensity-weighted
centroid converted to world coordinates.  On the scenario raster the
surviving mask is exactly cell `(3,3)` and the returned centroid is the
world coordinate of cell `(3,3)`. -/
theorem C5_extraction_scenario :
    (∀ r c, ProbalityMap.process_map 4 9 ProbalityMap.scenarioRaster r c =
        ProbalityMap.scenarioRaster r c) ∧
    ProbalityMap.find_mean_position 3 4 9 ProbalityMap.scenarioRaster =
      (some (14 / 3), some (7 / 6)) ∧
    ProbalityMap.to_position 3 (3, 3) = (14 / 3, 7 / 6) := by
  refine ⟨scenario_mask_id, ?_, ?_⟩
  · have hmask : ProbalityMap.process_map 4 9 ProbalityMap.scenarioRaster =
        ProbalityMap.scenarioRaster :=
      funext fun r => funext fun c => scenario_mask_id r c
    simp only [ProbalityMap.find_mean_position, hmask, scenario_sum_mask,
      scenario_sum_col, scenario_sum_row]
    norm_num [ProbalityMap.npDiv, ProbalityMap.to_positionN]
  · norm_num [ProbalityMap.to_position]

/-- Helper: `int()` of a nonnegative value is the floor. -/
theorem pyInt_of_nonneg (q : ℚ) (h : 0 ≤ q) : pyInt q = ⌊q⌋ := if_pos h

/-- Helper: the first raster dimension is `⌊3M/2⌋`. -/
theorem mapSize_fst (M : ℕ) :
    (ProbalityMap.mapSize M).1 = ⌊(3 * (M : ℚ)) / 2⌋ := by
  simp only [ProbalityMap.mapSize]
  rw [pyInt_of_nonneg _ (by positivity)]
  congr 1
  ring

/-- Helper: the second raster dimension is exactly `3M`. -/
theorem mapSize_snd (M : ℕ) : (ProbalityMap.mapSize M).2 = 3 * (M : ℤ) := by
  simp only [ProbalityMap.mapSize]
  rw [pyInt_of_nonneg _ (by positivity)]
  rw [show ((M : ℚ) * 3) = ((3 * (M : ℤ) : ℤ) : ℚ) by push_cast; ring]
  exact Int.floor_intCast _

/-- Helper: bounds for the first raster dimension `P = ⌊3M/2⌋`:
`1 ≤ P`, `3M - 1 ≤ 2P` and `2P ≤ 3M`. -/
theorem mapSize_fst_bounds (M : ℕ) (hM : 1 ≤ M) :
    1 ≤ (ProbalityMap.mapSize M).1 ∧
    3 * (M : ℤ) - 1 ≤ 2 * (ProbalityMap.mapSize M).1 ∧
    2 * (ProbalityMap.mapSize M).1 ≤ 3 * (M : ℤ) := by
  rw [mapSize_fst]
  have hM' : (1 : ℚ) ≤ (M : ℚ) := by exact_mod_cast hM
  refine ⟨?_, ?_, ?_⟩
  · exact Int.le_floor.mpr (by push_cast; linarith)
  · have h := Int.lt_floor_add_one ((3 * (M : ℚ)) / 2)
    have h2 : 3 * (M : ℤ) < 2 * ⌊(3 * (M : ℚ)) / 2⌋ + 2 := by
      have : (3 * (M : ℚ)) < 2 * (⌊(3 * (M : ℚ)) / 2⌋ : ℚ) + 2 := by linarith
      exact_mod_cast this
    omega
  · have h := Int.floor_le ((3 * (M : ℚ)) / 2)
    have h2 : 2 * (⌊(3 * (M : ℚ)) / 2⌋ : ℚ) ≤ 3 * (M : ℚ) := by linarith
    exact_mod_cast h2

/-- Helper: `int()` of a value in `[0, B)` lies in `[0, B)`. -/
theorem pyInt_mem_of (q : ℚ) (B : ℤ) (h0 : 0 ≤ q) (hB : q < (B : ℚ)) :
    0 ≤ pyInt q ∧ pyInt q < B := by
  rw [pyInt_of_nonneg q h0]
  exact ⟨Int.floor_nonneg.mpr h0, Int.floor_lt.mpr hB⟩

/-- Helper for C2 and C9: on every world position inside the raster's
world extent, `to_coords` produces indices inside `[0, size)` on both
axes — without any clamping. -/
theorem to_coords_inBounds (M : ℕ) (hM : 1 ≤ M) (p : Pt)
    (hp : ProbalityMap.inGridBounds p) :
    0 ≤ (ProbalityMap.to_coords M p).1 ∧
    (ProbalityMap.to_coords M p).1 < (ProbalityMap.mapSize M).1 ∧
    0 ≤ (ProbalityMap.to_coords M p).2 ∧
    (ProbalityMap.to_coords M p).2 < (ProbalityMap.mapSize M).2 := by
  obtain ⟨hx1, hx2, hy1, hy2⟩ := hp
  obtain ⟨hP1, hPlo, hPhi⟩ := mapSize_fst_bounds M hM
  have hP1Q : (1 : ℚ) ≤ ((ProbalityMap.mapSize M).1 : ℚ) := by exact_mod_cast hP1
  have hMQ : (1 : ℚ) ≤ (M : ℚ) := by exact_mod_cast hM
  simp only [ProbalityMap.to_coords]
  have hxlo : (0 : ℚ) ≤ (p.1 - 7 / 2) * ((ProbalityMap.mapSize M).1 : ℚ) / (3 / 2) := by
    apply div_nonneg _ (by norm_num)
    exact mul_nonneg (by linarith) (by linarith)
  have hxhi : (p.1 - 7 / 2) * ((ProbalityMap.mapSize M).1 : ℚ) / (3 / 2) <
      ((ProbalityMap.mapSize M).1 : ℚ) := by
    rw [div_lt_iff₀ (by norm_num : (0 : ℚ) < 3 / 2)]
    nlinarith
  have hylo : (0 : ℚ) ≤ p.2 * ((ProbalityMap.mapSize M).2 : ℚ) / 3 := by
    have : (0 : ℚ) ≤ ((ProbalityMap.mapSize M).2 : ℚ) := by
      rw [mapSize_snd]
      push_cast
      linarith
    positivity
  have hyhi : p.2 * ((ProbalityMap.mapSize M).2 : ℚ) / 3 <
      ((ProbalityMap.mapSize M).2 : ℚ) := by
    have h3 : ((ProbalityMap.mapSize M).2 : ℚ) = 3 * (M : ℚ) := by
      rw [mapSize_snd]
      push_cast
      ring
    rw [h3, div_lt_iff₀ (by norm_num : (0 : ℚ) < 3)]
    nlinarith
  obtain ⟨ha, hb⟩ := pyInt_mem_of _ _ hxlo hxhi
  obtain ⟨hc, hd⟩ := pyInt_mem_of _ _ hylo hyhi
  exact ⟨ha, hb, hc, hd⟩

/-- Helper for C2: truncating the x-axis rescaling of a cell-center
coordinate recovers the cell index, for any cell index in range (the
first raster dimension `⌊3M/2⌋` need not be exactly `3M/2`, so this
needs the two-sided bounds on `2P`). -/
theorem pyInt_rescale_x (M : ℕ) (hM : 1 ≤ M) (b : ℤ) (hb0 : 0 ≤ b)
    (hb : b < (ProbalityMap.mapSize M).1) :
    pyInt (((b : ℚ) + 1 / 2) / (M : ℚ) * ((ProbalityMap.mapSize M).1 : ℚ) /
      (3 / 2)) = b := by
  obtain ⟨hP1, hPlo, hPhi⟩ := mapSize_fst_bounds M hM
  have hMQ : (0 : ℚ) < (M : ℚ) := by exact_mod_cast Nat.lt_of_lt_of_le Nat.zero_lt_one hM
  have hPQ : (1 : ℚ) ≤ ((ProbalityMap.mapSize M).1 : ℚ) := by exact_mod_cast hP1
  have hb0Q : (0 : ℚ) ≤ (b : ℚ) := by exact_mod_cast hb0
  have hbQ : (b : ℚ) + 1 ≤ ((ProbalityMap.mapSize M).1 : ℚ) := by
    exact_mod_cast hb
  have hPloQ : 3 * (M : ℚ) - 1 ≤ 2 * ((ProbalityMap.mapSize M).1 : ℚ) := by
    exact_mod_cast hPlo
  have hPhiQ : 2 * ((ProbalityMap.mapSize M).1 : ℚ) ≤ 3 * (M : ℚ) := by
    exact_mod_cast hPhi
  have hq : ((b : ℚ) + 1 / 2) / (M : ℚ) * ((ProbalityMap.mapSize M).1 : ℚ) /
      (3 / 2) = (2 * (b : ℚ) + 1) * ((ProbalityMap.mapSize M).1 : ℚ) /
      (3 * (M : ℚ)) := by
    field_simp
    ring
  rw [hq]
  have hden : (0 : ℚ) < 3 * (M : ℚ) := by linarith
  have h0 : (0 : ℚ) ≤ (2 * (b : ℚ) + 1) * ((ProbalityMap.mapSize M).1 : ℚ) /
      (3 * (M : ℚ)) :=
    div_nonneg (mul_nonneg (by linarith) (by linarith)) (le_of_lt hden)
  rw [pyInt_of_nonneg _ h0]
  rw [Int.floor_eq_iff]
  constructor
  · rw [le_div_iff₀ hden]
    nlinarith [mul_nonneg (by linarith : (0 : ℚ) ≤ 2 * (b : ℚ) + 1)
      (by linarith : (0 : ℚ) ≤ 2 * ((ProbalityMap.mapSize M).1 : ℚ) -
        (3 * (M : ℚ) - 1))]
  · rw [div_lt_iff₀ hden]
    nlinarith [mul_nonneg (by linarith : (0 : ℚ) ≤ 2 * (b : ℚ) + 1)
      (by linarith : (0 : ℚ) ≤ 3 * (M : ℚ) -
        2 * ((ProbalityMap.mapSize M).1 : ℚ))]

/-- Helper for C2: truncating the y-axis rescaling of a cell-center
coordinate recovers the cell index (exact, since the second dimension is
exactly `3M`). -/
theorem pyInt_rescale_y (M : ℕ) (hM : 1 ≤ M) (a : ℤ) (ha : 0 ≤ a) :
    pyInt (((a : ℚ) + 1 / 2) / (M : ℚ) * ((ProbalityMap.mapSize M).2 : ℚ) / 3)
      = a := by
  have hMQ : (0 : ℚ) < (M : ℚ) := by
    exact_mod_cast Nat.lt_of_lt_of_le Nat.zero_lt_one hM
  have haQ : (0 : ℚ) ≤ (a : ℚ) := by exact_mod_cast ha
  have h3 : ((ProbalityMap.mapSize M).2 : ℚ) = 3 * (M : ℚ) := by
    rw [mapSize_snd]
    push_cast
    ring
  have hq : ((a : ℚ) + 1 / 2) / (M : ℚ) * ((ProbalityMap.mapSize M).2 : ℚ) / 3
      = (a : ℚ) + 1 / 2 := by
    rw [h3]
    field_simp
    ring
  rw [hq, pyInt_of_nonneg _ (by linarith)]
  rw [Int.floor_eq_iff]
  constructor
  · linarith
  · linarith

/-- C2 counterexample: for the in-bounds position `(3.6, 1)` (with the
cells-per-metre constant taken as `M = 10`), one round trip through
`to_position` does NOT stabilise the cell indices: `to_coords` yields
`(1, 10)` but `to_coords ∘ to_position ∘ to_coords` yields the swapped
pair `(10, 1)`, because `to_position` unpacks its argument as `(y, x)`
while `to_coords` returns `(x-index, y-index)`. -/
theorem C2_roundtrip_counterexample :
    ProbalityMap.inGridBounds ((36 : ℚ) / 10, 1) ∧
    ProbalityMap.to_coords 10 (ProbalityMap.to_position 10
        (ProbalityMap.to_coords 10 ((36 : ℚ) / 10, 1))) ≠
      ProbalityMap.to_coords 10 ((36 : ℚ) / 10, 1) := by
  have hc : ProbalityMap.to_coords 10 ((36 : ℚ) / 10, 1) = (1, 10) := by
    norm_num [ProbalityMap.to_coords, ProbalityMap.mapSize, pyInt]
  have hp : ProbalityMap.to_position 10 ((1 : ℤ), (10 : ℤ)) =
      (91 / 20, 3 / 20) := by
    norm_num [ProbalityMap.to_position]
  have hc2 : ProbalityMap.to_coords 10 ((91 : ℚ) / 20, 3 / 20) = (10, 1) := by
    norm_num [ProbalityMap.to_coords, ProbalityMap.mapSize, pyInt]
  refine ⟨by norm_num [ProbalityMap.inGridBounds], ?_⟩
  rw [hc, hp, hc2]
  decide

/-- C2 (amended): `to_position` inverts `to_coords` only up to swapping
the components of the index pair (it consumes `(y-index, x-index)` while
`to_coords` produces `(x-index, y-index)`).  With the order corrected,
the round trip stabilises after one pass: for every position inside the
grid bounds and every cells-per-metre constant `M ≥ 1`,
`to_coords (to_position (swap (to_coords p))) = to_coords p`. -/
theorem C2_roundtrip_swapped (M : ℕ) (hM : 1 ≤ M) (p : Pt)
    (hp : ProbalityMap.inGridBounds p) :
    ProbalityMap.to_coords M (ProbalityMap.to_position M
        (ProbalityMap.swapPair (ProbalityMap.to_coords M p))) =
      ProbalityMap.to_coords M p := by
  obtain ⟨cx, cy, hc⟩ : ∃ cx cy, ProbalityMap.to_coords M p = (cx, cy) :=
    ⟨_, _, rfl⟩
  obtain ⟨h1, h2, h3, h4⟩ := to_coords_inBounds M hM p hp
  rw [hc] at h1 h2 h3 h4 ⊢
  simp only [ProbalityMap.swapPair, ProbalityMap.to_position,
    ProbalityMap.to_coords]
  have hx : ((cx : ℚ) + 1 / 2) / (M : ℚ) + 7 / 2 - 7 / 2 =
      ((cx : ℚ) + 1 / 2) / (M : ℚ) := by ring
  refine Prod.ext ?_ ?_
  · show pyInt ((((cx : ℚ) + 1 / 2) / (M : ℚ) + 7 / 2 - 7 / 2) *
        ((ProbalityMap.mapSize M).1 : ℚ) / (3 / 2)) = cx
    rw [hx]
    exact pyInt_rescale_x M hM cx h1 h2
  · show pyInt (((cy : ℚ) + 1 / 2) / (M : ℚ) *
        ((ProbalityMap.mapSize M).2 : ℚ) / 3) = cy
    exact pyInt_rescale_y M hM cy h3

/-- Witness for C2 (amended): the order-corrected round trip at the
concrete in-bounds position `(3.6, 1)` with `M = 10`. -/
theorem C2_roundtrip_swapped_witness :
    ProbalityMap.to_coords 10 (ProbalityMap.to_position 10
        (ProbalityMap.swapPair (ProbalityMap.to_coords 10 ((36 : ℚ) / 10, 1))))
      = ProbalityMap.to_coords 10 ((36 : ℚ) / 10, 1) :=
  C2_roundtrip_swapped 10 (by norm_num) ((36 : ℚ) / 10, 1)
    (by norm_num [ProbalityMap.inGridBounds])

/-- C9 counterexample: `fill` does NOT clamp grid coordinates before
indexing.  For the world position `(3, 1)` — outside the raster's world
extent, whose x starts at 3.5 — the computed x-index is `-5`, outside
`[0, 15)` (with `M = 10`), and the write still goes through: `numpy`
wraps the negative index to row `10 = 15 - 5`, where the roughness value
`5` lands.  A clamped implementation would have written row `0`. -/
theorem C9_unclamped_counterexample :
    ProbalityMap.to_coords 10 ((3 : ℚ), 1) = (-5, 10) ∧
    (ProbalityMap.to_coords 10 ((3 : ℚ), 1)).1 < 0 ∧
    ProbalityMap.fill 10 ProbalityMap.zeroRaster ((3 : ℚ), 1) [0, 5] =
      some (ProbalityMap.writeMax ProbalityMap.zeroRaster 10 10
        (ProbalityMap.sumAbsDiff [0, 5])) ∧
    ProbalityMap.writeMax ProbalityMap.zeroRaster 10 10
      (ProbalityMap.sumAbsDiff [0, 5]) 10 10 = 5 ∧
    ProbalityMap.writeMax ProbalityMap.zeroRaster 10 10
      (ProbalityMap.sumAbsDiff [0, 5]) 0 10 = 0 := by
  have hc : ProbalityMap.to_coords 10 ((3 : ℚ), 1) = (-5, 10) := by
    norm_num [ProbalityMap.to_coords, ProbalityMap.mapSize, pyInt,
      Int.ceil_neg]
  have hs : ProbalityMap.sumAbsDiff [0, 5] = 5 := by
    norm_num [ProbalityMap.sumAbsDiff]
  refine ⟨hc, by rw [hc]; norm_num, ?_, ?_, ?_⟩
  · have hm : ProbalityMap.mapSize 10 = (15, 30) := by
      norm_num [ProbalityMap.mapSize, pyInt]
    simp only [ProbalityMap.fill, hc, hm]
    norm_num [ProbalityMap.npIndex]
  · rw [hs]
    norm_num [ProbalityMap.writeMax, ProbalityMap.zeroRaster]
  · norm_num [ProbalityMap.writeMax, ProbalityMap.zeroRaster]

/-- C9 (amended): no clamping is performed, but for every world position
inside the raster's world extent the computed coordinates already lie in
`[0, size)` on both axes, and `fill` indexes the raster exactly at those
unclamped coordinates (the write succeeds, updating that cell to the max
of its old value and the roughness). -/
theorem C9_inbounds_fill_unclamped (M : ℕ) (hM : 1 ≤ M) (p : Pt)
    (hp : ProbalityMap.inGridBounds p) (m : ℤ → ℤ → ℚ) (hist : List ℚ) :
    (0 ≤ (ProbalityMap.to_coords M p).1 ∧
     (ProbalityMap.to_coords M p).1 < (ProbalityMap.mapSize M).1 ∧
     0 ≤ (ProbalityMap.to_coords M p).2 ∧
     (ProbalityMap.to_coords M p).2 < (ProbalityMap.mapSize M).2) ∧
    ProbalityMap.fill M m p hist =
      some (ProbalityMap.writeMax m (ProbalityMap.to_coords M p).1
        (ProbalityMap.to_coords M p).2 (ProbalityMap.sumAbsDiff hist)) := by
  obtain ⟨h1, h2, h3, h4⟩ := to_coords_inBounds M hM p hp
  refine ⟨⟨h1, h2, h3, h4⟩, ?_⟩
  have hx : ProbalityMap.npIndex (ProbalityMap.mapSize M).1
      (ProbalityMap.to_coords M p).1 = some (ProbalityMap.to_coords M p).1 := by
    simp only [ProbalityMap.npIndex]
    rw [if_pos ⟨h1, h2⟩]
  have hy : ProbalityMap.npIndex (ProbalityMap.mapSize M).2
      (ProbalityMap.to_coords M p).2 = some (ProbalityMap.to_coords M p).2 := by
    simp only [ProbalityMap.npIndex]
    rw [if_pos ⟨h3, h4⟩]
  simp only [ProbalityMap.fill, hx, hy, Option.some_bind, Option.map_some']

/-- Witness for C9 (amended): the in-bounds position `(4, 1)` with
`M = 10`, an all-zero raster and the range history `[0, 5]`. -/
theorem C9_inbounds_fill_unclamped_witness :
    (0 ≤ (ProbalityMap.to_coords 10 ((4 : ℚ), 1)).1 ∧
     (ProbalityMap.to_coords 10 ((4 : ℚ), 1)).1 < (ProbalityMap.mapSize 10).1 ∧
     0 ≤ (ProbalityMap.to_coords 10 ((4 : ℚ), 1)).2 ∧
     (ProbalityMap.to_coords 10 ((4 : ℚ), 1)).2 <
       (ProbalityMap.mapSize 10).2) ∧
    ProbalityMap.fill 10 ProbalityMap.zeroRaster ((4 : ℚ), 1) [0, 5] =
      some (ProbalityMap.writeMax ProbalityMap.zeroRaster
        (ProbalityMap.to_coords 10 ((4 : ℚ), 1)).1
        (ProbalityMap.to_coords 10 ((4 : ℚ), 1)).2
        (ProbalityMap.sumAbsDiff [0, 5])) :=
  C9_inbounds_fill_unclamped 10 (by norm_num) ((4 : ℚ), 1)
    (by norm_num [ProbalityMap.inGridBounds]) ProbalityMap.zeroRaster [0, 5]

/-- Helper for C7, the loop invariant of the isolation pass: after some
iterations the current list is `kept ++ post ++ dfr` where `kept` holds
the already-examined non-isolated points (in order), `post` the
unexamined points, and `dfr` the already-deferred isolated points (in
order of deferral); the scan position is `kept.length` and the remaining
fuel is `post.length`.  Isolation is judged against the ORIGINAL list
`l0` since the current list stays a permutation of it and the neighbour
count is permutation-invariant. -/
theorem isolationGo_spec (l0 : List Pt) (post : List Pt) :
    ∀ kept dfr : List Pt,
      (∀ q ∈ kept, TargetSearch.isIso l0 q = false) →
      List.Perm (kept ++ post ++ dfr) l0 →
      TargetSearch.isolationGo post.length kept.length (kept ++ post ++ dfr) =
        (kept ++ post.filter (fun q => !TargetSearch.isIso l0 q)) ++
          (dfr ++ post.filter (fun q => TargetSearch.isIso l0 q)) := by
  induction post with
  | nil =>
      intro kept dfr hkept hperm
      simp [TargetSearch.isolationGo]
  | cons p rest ih =>
      intro kept dfr hkept hperm
      have hget : (kept ++ (p :: rest) ++ dfr).getD kept.length (0, 0) = p := by
        rw [List.append_assoc, List.getD_eq_getElem?_getD,
          List.getElem?_append_right (le_refl kept.length)]
        simp
      have hcnt : TargetSearch.countNeighbors (kept ++ (p :: rest) ++ dfr) p =
          TargetSearch.countNeighbors l0 p := by
        unfold TargetSearch.countNeighbors
        exact (hperm.filter _).length_eq
      have hcond : TargetSearch.isIso (kept ++ (p :: rest) ++ dfr) p =
          TargetSearch.isIso l0 p := by
        unfold TargetSearch.isIso
        rw [hcnt]
      simp only [List.length_cons, TargetSearch.isolationGo, hget, hcond]
      by_cases hiso : TargetSearch.isIso l0 p = true
      · rw [if_pos hiso]
        have hnotin : p ∉ kept := by
          intro hmem
          have h := hkept p hmem
          rw [hiso] at h
          exact absurd h (by simp)
        have herase : (kept ++ (p :: rest) ++ dfr).erase p =
            kept ++ (rest ++ dfr) := by
          rw [List.append_assoc, List.cons_append,
            show kept ++ (p :: (rest ++ dfr)) = kept ++ (p :: (rest ++ dfr))
              from rfl]
          rw [List.erase_append_right _ hnotin, List.erase_cons_head]
        rw [herase]
        have hlist : kept ++ (rest ++ dfr) ++ [p] =
            kept ++ rest ++ (dfr ++ [p]) := by
          simp [List.append_assoc]
        rw [hlist]
        have hinner : List.Perm (rest ++ (dfr ++ [p])) (p :: (rest ++ dfr)) := by
          have h0 : rest ++ (dfr ++ [p]) = (rest ++ dfr) ++ [p] := by
            simp [List.append_assoc]
          rw [h0]
          exact List.perm_append_singleton _ _
        have hperm2 : List.Perm (kept ++ rest ++ (dfr ++ [p])) l0 := by
          have h2 : kept ++ (p :: rest) ++ dfr =
              kept ++ (p :: (rest ++ dfr)) := by
            simp [List.append_assoc]
          rw [h2] at hperm
          have h1 : kept ++ rest ++ (dfr ++ [p]) =
              kept ++ (rest ++ (dfr ++ [p])) := by
            simp [List.append_assoc]
          rw [h1]
          exact List.Perm.trans (List.Perm.append_left kept hinner) hperm
        rw [ih kept (dfr ++ [p]) hkept hperm2]
        simp [hiso, List.filter_cons, List.append_assoc]
      · rw [if_neg hiso]
        have hfalse : TargetSearch.isIso l0 p = false := by
          cases h : TargetSearch.isIso l0 p
          · rfl
          · exact absurd h hiso
        have hkept2 : ∀ q ∈ kept ++ [p], TargetSearch.isIso l0 q = false := by
          intro q hq
          rcases List.mem_append.mp hq with h | h
          · exact hkept q h
          · rw [List.mem_singleton.mp h]
            exact hfalse
        have hlist : kept ++ (p :: rest) ++ dfr =
            (kept ++ [p]) ++ rest ++ dfr := by
          simp [List.append_assoc]
        have hlen : kept.length + 1 = (kept ++ [p]).length := by simp
        rw [hlist, hlen]
        have hperm2 : List.Perm ((kept ++ [p]) ++ rest ++ dfr) l0 := by
          rw [← hlist]
          exact hperm
        rw [ih (kept ++ [p]) dfr hkept2 hperm2]
        simp [hfalse, List.filter_cons, List.append_assoc]

/-- C7: the isolation pass is a stable partition — for every candidate
list, every point whose in-list neighbour count (within squared radius
`9/4`, i.e. distance `1.5`) is at or below the threshold `3` ends up
after all non-deferred points, and the relative order of the
non-deferred points (and of the deferred ones) is preserved; on the
5-point list `demoList` with exactly 2 isolated points (placed first and
fourth), the pass moves those 2 points to the end with the order of the
other 3 preserved. -/
theorem C7_isolation_stable_partition :
    (∀ l : List Pt,
        TargetSearch.isolationPass l =
          l.filter (fun q => !TargetSearch.isIso l q) ++
            l.filter (fun q => TargetSearch.isIso l q)) ∧
    TargetSearch.isolationPass TargetSearch.demoList =
      [(0, 0), (1, 0), (1 / 2, 4 / 5), (1 / 2, -6 / 5), (1 / 2, 11 / 5)] ∧
    (TargetSearch.demoList.filter
        (fun q => TargetSearch.isIso TargetSearch.demoList q)).length = 2 := by
  have hmain : ∀ l : List Pt,
      TargetSearch.isolationPass l =
        l.filter (fun q => !TargetSearch.isIso l q) ++
          l.filter (fun q => TargetSearch.isIso l q) := by
    intro l
    have h := isolationGo_spec l l [] [] (by simp) (by simp)
    simpa [TargetSearch.isolationPass] using h
  refine ⟨hmain, ?_, ?_⟩
  · rw [hmain]
    norm_num [TargetSearch.demoList, TargetSearch.isIso,
      TargetSearch.countNeighbors, TargetSearch.dist2, List.filter_cons,
      List.filter_nil]
  · norm_num [TargetSearch.demoList, TargetSearch.isIso,
      TargetSearch.countNeighbors, TargetSearch.dist2, List.filter_cons,
      List.filter_nil]
